import Mathlib

/-!
Shallow embedding of the indicator core of `fx_handson_app.py`.

A pandas column over a frame of `N` rows is modelled as a function
`ℕ → Option ℚ`: `none` stands both for the float NaN ("no value"
sentinel) and for indices past the end of the frame.  The input price
column `df[price_col]` is a `List ℚ` (the upstream provider guarantees
numeric, non-null rates).  Real-valued results of `sqrt` live in
`Option ℝ`.

Float conventions made explicit in the embedding (each is noted at its
definition site): `x / 0` with `x ≠ 0` is `±inf` and `0 / 0` is NaN.
Wherever the source can hit a division by zero we case on the
denominator and return the value IEEE arithmetic would propagate.
-/

namespace FxHandson

/-- Embedding of `df[price_col]`: the rate at row `i`, `none` past the end. -/
def rateCol (xs : List ℚ) : ℕ → Option ℚ := fun i => xs[i]?

/-- Trailing window of `w` rows ending at row `i` of a column, as pandas
`rolling(window=w)` sees it: `none` unless the window is complete
(`w ≤ i + 1`) and every entry in it is a value (pandas' default
`min_periods = w` makes the result NaN when any entry is NaN). -/
def owindow (c : ℕ → Option ℚ) (w i : ℕ) : Option (List ℚ) :=
  if w ≤ i + 1 ∧ ((List.range' (i + 1 - w) w).map c).all Option.isSome then
    some ((List.range' (i + 1 - w) w).map c).reduceOption
  else none

/-- Arithmetic mean of a list of rationals. -/
def listMean (l : List ℚ) : ℚ := l.sum / (l.length : ℚ)

/-- Embedding of `rolling(window=w).mean()` applied at row `i`. -/
def rollingMean (w : ℕ) (c : ℕ → Option ℚ) (i : ℕ) : Option ℚ :=
  (owindow c w i).map listMean

/-- Maximum of a list (used only on the nonempty complete windows that
`rolling(...).max()` produces). -/
def listMax (l : List ℚ) : ℚ := l.foldr max l.headI

/-- Minimum of a list (used only on nonempty complete windows). -/
def listMin (l : List ℚ) : ℚ := l.foldr min l.headI

/-- Variance with pandas' default `ddof=1`: mean-centred sum of squares
divided by `length − 1`.  This is what `Series.rolling(...).std()` and
`Series.std()` take the square root of. -/
def sampleVar (l : List ℚ) : ℚ :=
  ((l.map fun x => (x - listMean l) ^ 2).sum) / ((l.length : ℚ) - 1)

/-- Embedding of `df[price_col].diff()`: `x[i] − x[i−1]`, NaN at row 0. -/
def deltaCol (xs : List ℚ) (i : ℕ) : Option ℚ :=
  if i = 0 then none
  else
    match xs[i]?, xs[i - 1]? with
    | some a, some b => some (a - b)
    | _, _ => none

/- `calculate_technical_indicators` columns, in source order. -/

/-- Column `MA_5`: `rolling(window=5).mean()` of the rate. -/
def MA_5 (xs : List ℚ) : ℕ → Option ℚ := rollingMean 5 (rateCol xs)

/-- Column `MA_20`: `rolling(window=20).mean()` of the rate. -/
def MA_20 (xs : List ℚ) : ℕ → Option ℚ := rollingMean 20 (rateCol xs)

/-- Column `MA_50`: `rolling(window=50).mean()` of the rate. -/
def MA_50 (xs : List ℚ) : ℕ → Option ℚ := rollingMean 50 (rateCol xs)

/-- Column `MA_200`: `rolling(window=200).mean()` of the rate. -/
def MA_200 (xs : List ℚ) : ℕ → Option ℚ := rollingMean 200 (rateCol xs)

/-- Column `BB_Middle`: `rolling(window=20).mean()` of the rate. -/
def BB_Middle (xs : List ℚ) : ℕ → Option ℚ := rollingMean 20 (rateCol xs)

/-- Variance underlying the local `bb_std` series: pandas
`rolling(window=20).std()` squared, i.e. `sampleVar` of the 20-row window. -/
def bbVar (xs : List ℚ) (i : ℕ) : Option ℚ :=
  (owindow (rateCol xs) 20 i).map sampleVar

/-- The local series `bb_std = df[price_col].rolling(window=20).std()`:
square root of the `ddof=1` variance of the trailing 20-row window. -/
noncomputable def bb_std (xs : List ℚ) (i : ℕ) : Option ℝ :=
  (bbVar xs i).map fun v => Real.sqrt (v : ℝ)

/-- Column `BB_Upper = BB_Middle + bb_std * 2` (NaN if either side is NaN). -/
noncomputable def BB_Upper (xs : List ℚ) (i : ℕ) : Option ℝ :=
  match BB_Middle xs i, bb_std xs i with
  | some m, some s => some ((m : ℝ) + s * 2)
  | _, _ => none

/-- Column `BB_Lower = BB_Middle - bb_std * 2` (NaN if either side is NaN). -/
noncomputable def BB_Lower (xs : List ℚ) (i : ℕ) : Option ℝ :=
  match BB_Middle xs i, bb_std xs i with
  | some m, some s => some ((m : ℝ) - s * 2)
  | _, _ => none

/-- The series `delta.where(delta > 0, 0)`: keeps the day-over-day delta
where it is positive, else 0.  At row 0 the delta is NaN, the condition
`NaN > 0` is False, so `where` substitutes 0 — the gain series has no NaN. -/
def gainCol (xs : List ℚ) (i : ℕ) : Option ℚ :=
  if i < xs.length then
    some
      (match deltaCol xs i with
       | some d => if 0 < d then d else 0
       | none => 0)
  else none

/-- The series `(-delta.where(delta < 0, 0))`: minus the delta where the
delta is negative, else 0.  As for gains, row 0 becomes `-0 = 0`. -/
def lossCol (xs : List ℚ) (i : ℕ) : Option ℚ :=
  if i < xs.length then
    some
      (match deltaCol xs i with
       | some d => if d < 0 then -d else 0
       | none => 0)
  else none

/-- Column `RSI = 100 - 100/(1 + rs)` with `rs = gain/loss`, both sides
14-row rolling means.  Float cases for `loss = 0`: `0/0` is NaN, making
RSI NaN (`none`); `g/0` with `g ≠ 0` is `+inf` (the gain mean is
nonnegative), and `100 − 100/(1 + inf) = 100`. -/
def RSI (xs : List ℚ) (i : ℕ) : Option ℚ :=
  match rollingMean 14 (gainCol xs) i, rollingMean 14 (lossCol xs) i with
  | some g, some l =>
      if l = 0 then (if g = 0 then none else some 100)
      else some (100 - 100 / (1 + g / l))
  | _, _ => none

/-- One step list of `ewm(span, adjust=False).mean()` values continuing
from accumulator `e`: each output is `a*x + (1−a)*e'` with `e'` the
previous output. -/
def emaFrom (a e : ℚ) : List ℚ → List ℚ
  | [] => []
  | x :: rest => (a * x + (1 - a) * e) :: emaFrom a (a * x + (1 - a) * e) rest

/-- Exponentially weighted mean with smoothing factor `a`, seeded by the
first value (pandas `ewm(..., adjust=False).mean()` on a NaN-free series). -/
def emaList (a : ℚ) : List ℚ → List ℚ
  | [] => []
  | x :: rest => x :: emaFrom a x rest

/-- Embedding of `df[col].ewm(span=s, adjust=False).mean()`:
smoothing factor `2/(s+1)`. -/
def ewmMean (s : ℕ) (xs : List ℚ) : List ℚ := emaList (2 / ((s : ℚ) + 1)) xs

/-- The local series `exp1 = df[price_col].ewm(span=12, adjust=False).mean()`. -/
def exp1 (xs : List ℚ) : List ℚ := ewmMean 12 xs

/-- The local series `exp2 = df[price_col].ewm(span=26, adjust=False).mean()`. -/
def exp2 (xs : List ℚ) : List ℚ := ewmMean 26 xs

/-- Column `MACD = exp1 - exp2`, as the underlying list. -/
def macdList (xs : List ℚ) : List ℚ :=
  List.zipWith (fun a b => a - b) (exp1 xs) (exp2 xs)

/-- Column `MACD` at row `i`. -/
def MACD (xs : List ℚ) (i : ℕ) : Option ℚ := (macdList xs)[i]?

/-- Column `MACD_Signal = MACD.ewm(span=9, adjust=False).mean()`, as a list. -/
def macdSignalList (xs : List ℚ) : List ℚ := ewmMean 9 (macdList xs)

/-- Column `MACD_Signal` at row `i`. -/
def MACD_Signal (xs : List ℚ) (i : ℕ) : Option ℚ := (macdSignalList xs)[i]?

/-- Column `MACD_Histogram = MACD - MACD_Signal`. -/
def MACD_Histogram (xs : List ℚ) (i : ℕ) : Option ℚ :=
  match MACD xs i, MACD_Signal xs i with
  | some a, some b => some (a - b)
  | _, _ => none

/-- The local series `high_14 = rolling(window=14).max()` of the rate. -/
def high_14 (xs : List ℚ) (i : ℕ) : Option ℚ :=
  (owindow (rateCol xs) 14 i).map listMax

/-- The local series `low_14 = rolling(window=14).min()` of the rate. -/
def low_14 (xs : List ℚ) (i : ℕ) : Option ℚ :=
  (owindow (rateCol xs) 14 i).map listMin

/-- Column `Stoch_K = 100 * (rate − low14)/(high14 − low14)`.  When the
trailing window is constant, `high − low = 0` and the numerator
`rate − low` is 0 as well (the current rate lies in the window), so the
float result is NaN (`0/0`). -/
def Stoch_K (xs : List ℚ) (i : ℕ) : Option ℚ :=
  match rateCol xs i, high_14 xs i, low_14 xs i with
  | some x, some hi, some lo =>
      if hi - lo = 0 then none else some (100 * ((x - lo) / (hi - lo)))
  | _, _, _ => none

/-- Column `Stoch_D = Stoch_K.rolling(window=3).mean()`. -/
def Stoch_D (xs : List ℚ) : ℕ → Option ℚ := rollingMean 3 (Stoch_K xs)

/-- Column `TR = df[price_col].diff().abs()` (NaN at row 0). -/
def TR (xs : List ℚ) (i : ℕ) : Option ℚ := (deltaCol xs i).map fun d => |d|

/-- Column `ATR = TR.rolling(window=14).mean()`. -/
def ATR (xs : List ℚ) : ℕ → Option ℚ := rollingMean 14 (TR xs)

/-- Column `DM_Plus = price_diff.where(price_diff > 0, 0)`; row 0's NaN
delta fails the comparison and is replaced by 0. -/
def DM_Plus (xs : List ℚ) (i : ℕ) : Option ℚ :=
  if i < xs.length then
    some
      (match deltaCol xs i with
       | some d => if 0 < d then d else 0
       | none => 0)
  else none

/-- Column `DM_Minus = (-price_diff).where(price_diff < 0, 0)`. -/
def DM_Minus (xs : List ℚ) (i : ℕ) : Option ℚ :=
  if i < xs.length then
    some
      (match deltaCol xs i with
       | some d => if d < 0 then -d else 0
       | none => 0)
  else none

/-- Column `DI_Plus = 100 * (DM_Plus.rolling(14).mean() / ATR)`.  A zero
`ATR` is a mean of nonnegative absolute deltas, so it forces every delta
in the window — and hence the `DM_Plus` mean — to be 0: the float result
there is NaN (`0/0`). -/
def DI_Plus (xs : List ℚ) (i : ℕ) : Option ℚ :=
  match rollingMean 14 (DM_Plus xs) i, ATR xs i with
  | some m, some a => if a = 0 then none else some (100 * (m / a))
  | _, _ => none

/-- Column `DI_Minus = 100 * (DM_Minus.rolling(14).mean() / ATR)`. -/
def DI_Minus (xs : List ℚ) (i : ℕ) : Option ℚ :=
  match rollingMean 14 (DM_Minus xs) i, ATR xs i with
  | some m, some a => if a = 0 then none else some (100 * (m / a))
  | _, _ => none

/-- Column `DX = 100 * |DI_Plus − DI_Minus| / (DI_Plus + DI_Minus)`.  The
two DI columns are nonnegative where defined, so a zero sum forces a zero
numerator: the float result there is NaN (`0/0`). -/
def DX (xs : List ℚ) (i : ℕ) : Option ℚ :=
  match DI_Plus xs i, DI_Minus xs i with
  | some p, some m =>
      if p + m = 0 then none else some (100 * |p - m| / (p + m))
  | _, _ => none

/-- Column `ADX = DX.rolling(window=14).mean()`. -/
def ADX (xs : List ℚ) : ℕ → Option ℚ := rollingMean 14 (DX xs)

/-- Column `Volatility = df[price_col].rolling(window=20).std()` — the
same series as `bb_std`. -/
noncomputable def Volatility (xs : List ℚ) (i : ℕ) : Option ℝ :=
  ((owindow (rateCol xs) 20 i).map sampleVar).map fun v => Real.sqrt (v : ℝ)

/-- Column `Daily_Return = df[price_col].pct_change()`: NaN at row 0.
The upstream provider supplies non-null positive rates, so the
previous-rate-zero branch is unreachable; it is mapped to the sentinel. -/
def Daily_Return (xs : List ℚ) (i : ℕ) : Option ℚ :=
  if i = 0 then none
  else
    match xs[i]?, xs[i - 1]? with
    | some a, some b => if b = 0 then none else some ((a - b) / b)
    | _, _ => none

/-- The dataframe returned by `calculate_technical_indicators`: the input
column plus every column the function assigns, index-aligned, with its
row count. -/
structure IndicatorFrame where
  len : ℕ
  rate : ℕ → Option ℚ
  ma5 : ℕ → Option ℚ
  ma20 : ℕ → Option ℚ
  ma50 : ℕ → Option ℚ
  ma200 : ℕ → Option ℚ
  bbMiddle : ℕ → Option ℚ
  bbUpper : ℕ → Option ℝ
  bbLower : ℕ → Option ℝ
  rsi : ℕ → Option ℚ
  macd : ℕ → Option ℚ
  macdSignal : ℕ → Option ℚ
  macdHistogram : ℕ → Option ℚ
  stochK : ℕ → Option ℚ
  stochD : ℕ → Option ℚ
  tr : ℕ → Option ℚ
  atr : ℕ → Option ℚ
  dmPlus : ℕ → Option ℚ
  dmMinus : ℕ → Option ℚ
  diPlus : ℕ → Option ℚ
  diMinus : ℕ → Option ℚ
  dx : ℕ → Option ℚ
  adx : ℕ → Option ℚ
  volatility : ℕ → Option ℝ
  dailyReturn : ℕ → Option ℚ

/-- Embedding of `calculate_technical_indicators(df)`: builds the
enriched frame from the price column. -/
noncomputable def calculate_technical_indicators (xs : List ℚ) : IndicatorFrame where
  len := xs.length
  rate := rateCol xs
  ma5 := MA_5 xs
  ma20 := MA_20 xs
  ma50 := MA_50 xs
  ma200 := MA_200 xs
  bbMiddle := BB_Middle xs
  bbUpper := BB_Upper xs
  bbLower := BB_Lower xs
  rsi := RSI xs
  macd := MACD xs
  macdSignal := MACD_Signal xs
  macdHistogram := MACD_Histogram xs
  stochK := Stoch_K xs
  stochD := Stoch_D xs
  tr := TR xs
  atr := ATR xs
  dmPlus := DM_Plus xs
  dmMinus := DM_Minus xs
  diPlus := DI_Plus xs
  diMinus := DI_Minus xs
  dx := DX xs
  adx := ADX xs
  volatility := Volatility xs
  dailyReturn := Daily_Return xs

/-- Call-site semantics of `calculate_technical_indicators`: the function
first takes `df = df.copy()` and assigns columns only on the copy, so the
caller observes its own series unchanged next to the fresh result.  The
pair is (caller's series after the call, returned frame). -/
noncomputable def call_calculate (df : List ℚ) : List ℚ × IndicatorFrame :=
  (df, calculate_technical_indicators df)

/-- Embedding of `df['EXCHANGE_RATE'].std()` as used by the summary
statistics in `get_ai_analysis` and the statistics table: pandas
`Series.std()` with its default `ddof=1`, NaN when fewer than two rows
contribute. -/
noncomputable def seriesStd (xs : List ℚ) : Option ℝ :=
  if 2 ≤ xs.length then some (Real.sqrt ((sampleVar xs : ℚ) : ℝ)) else none

/-- Population variance, written from the spec's words for comparison:
"divides the sum of squared deviations by N, not by N−1".  The code
itself computes `sampleVar`; this definition is the claim's comparator. -/
def popVar (xs : List ℚ) : ℚ :=
  ((xs.map fun x => (x - listMean xs) ^ 2).sum) / (xs.length : ℚ)

/-- Embedding of the trailing-10-row direction in `get_ai_analysis`:
`recent_data = df.tail(10)` and the label is `"上昇"` ("up") when the last
rate of that slice strictly exceeds its first rate, else `"下降"`
("down").  `none` models the IndexError the source would raise on an
empty frame (`iloc` on no rows). -/
def recentTrend (xs : List ℚ) : Option String :=
  let t := xs.drop (xs.length - 10)
  match t.head?, t.getLast? with
  | some a, some b => some (if b > a then "上昇" else "下降")
  | _, _ => none

/-- The latest row as the signal summary in
`display_single_currency_analysis` reads it: the three indicator values it
inspects, `none` for NaN. -/
structure LatestRow where
  rsiV : Option ℚ
  stochKV : Option ℚ
  adxV : Option ℚ

/-- The RSI label: `"買われすぎ"` (overbought) if RSI > 70, `"売られすぎ"`
(oversold) if RSI < 30, else `"中立"` (neutral). -/
def rsiSignal (v : ℚ) : String :=
  if v > 70 then "買われすぎ" else if v < 30 then "売られすぎ" else "中立"

/-- The Stochastic %K label: overbought above 80, oversold below 20,
else neutral. -/
def stochSignal (v : ℚ) : String :=
  if v > 80 then "買われすぎ" else if v < 20 then "売られすぎ" else "中立"

/-- The ADX label: `"強いトレンド"` (strong trend) above 25, `"弱いトレンド"`
(weak trend) above 20, else `"レンジ相場"` (ranging). -/
def adxSignal (v : ℚ) : String :=
  if v > 25 then "強いトレンド" else if v > 20 then "弱いトレンド" else "レンジ相場"

/-- Embedding of the `tech_data` list built at lines 889-906: one
`(indicator, value, label)` entry is appended per indicator whose latest
value is not NaN; a NaN indicator contributes nothing. -/
def techSignals (r : LatestRow) : List (String × ℚ × String) :=
  (match r.rsiV with
   | some v => [("RSI", v, rsiSignal v)]
   | none => [])
  ++ (match r.stochKV with
      | some v => [("Stochastic %K", v, stochSignal v)]
      | none => [])
  ++ (match r.adxV with
      | some v => [("ADX", v, adxSignal v)]
      | none => [])

/-- Specification predicate for the EMA recursion of claim C5: `es` is the
exponentially weighted mean of `ys` with smoothing factor `a` when it has
the same length, is seeded by the first value, and obeys
`E[t+1] = a*x[t+1] + (1-a)*E[t]`. -/
def EwmRec (a : ℚ) (ys es : List ℚ) : Prop :=
  es.length = ys.length ∧ es[0]? = ys[0]? ∧
  ∀ i x e, ys[i + 1]? = some x → es[i]? = some e →
    es[i + 1]? = some (a * x + (1 - a) * e)

/-- Concrete Bollinger upper band value at the witness input: middle band
0, standard deviation `sqrt 0`. -/
noncomputable def bbWitnessUpper : ℝ := ((0 : ℚ) : ℝ) + Real.sqrt ((0 : ℚ) : ℝ) * 2

/-- Concrete Bollinger lower band value at the witness input. -/
noncomputable def bbWitnessLower : ℝ := ((0 : ℚ) : ℝ) - Real.sqrt ((0 : ℚ) : ℝ) * 2

/-! Helper lemmas about the rolling-window combinators. -/

lemma owindow_eq_none (c : ℕ → Option ℚ) {w i : ℕ} (h : i + 1 < w) :
    owindow c w i = none := by
  unfold owindow
  rw [if_neg]
  intro hc
  exact absurd hc.1 (Nat.not_le.mpr h)

lemma rollingMean_eq_none (c : ℕ → Option ℚ) {w i : ℕ} (h : i + 1 < w) :
    rollingMean w c i = none := by
  simp [rollingMean, owindow_eq_none c h]

lemma owindow_eq_some (c : ℕ → Option ℚ) {w i : ℕ} (f : ℕ → ℚ) (hw : w ≤ i + 1)
    (h : ∀ j ∈ List.range' (i + 1 - w) w, c j = some (f j)) :
    owindow c w i = some ((List.range' (i + 1 - w) w).map f) := by
  have hmap : (List.range' (i + 1 - w) w).map c =
      (List.range' (i + 1 - w) w).map (fun j => some (f j)) :=
    List.map_congr_left h
  unfold owindow
  rw [if_pos]
  · rw [hmap]
    have : (List.range' (i + 1 - w) w).map (fun j => some (f j)) =
        ((List.range' (i + 1 - w) w).map f).map some := by
      simp [List.map_map]
    rw [this, List.reduceOption, List.filterMap_map]
    simp [List.filterMap_some]
  · refine ⟨hw, ?_⟩
    rw [hmap, List.all_eq_true]
    intro x hx
    obtain ⟨j, hj, rfl⟩ := List.mem_map.mp hx
    rfl

lemma owindow_length {c : ℕ → Option ℚ} {w i : ℕ} {win : List ℚ}
    (h : owindow c w i = some win) : win.length = w := by
  unfold owindow at h
  by_cases hc : w ≤ i + 1 ∧ ((List.range' (i + 1 - w) w).map c).all Option.isSome
  · rw [if_pos hc, Option.some_inj] at h
    subst h
    have hall : ∀ x ∈ (List.range' (i + 1 - w) w).map c, Option.isSome x := by
      simpa [List.all_eq_true] using hc.2
    have hlen := List.reduceOption_length_eq_iff.mpr hall
    simpa [List.length_map, List.length_range'] using hlen
  · rw [if_neg hc] at h
    exact absurd h (by simp)

lemma owindow_mem {c : ℕ → Option ℚ} {w i : ℕ} {win : List ℚ}
    (h : owindow c w i = some win) {v : ℚ} (hv : v ∈ win) :
    ∃ j ∈ List.range' (i + 1 - w) w, c j = some v := by
  unfold owindow at h
  by_cases hc : w ≤ i + 1 ∧ ((List.range' (i + 1 - w) w).map c).all Option.isSome
  · rw [if_pos hc, Option.some_inj] at h
    rw [← h] at hv
    have := List.reduceOption_mem_iff.mp hv
    obtain ⟨j, hj, hcj⟩ := List.mem_map.mp this
    exact ⟨j, hj, hcj⟩
  · rw [if_neg hc] at h
    exact absurd h (by simp)

lemma rollingMean_eq_some {c : ℕ → Option ℚ} {w i : ℕ} {m : ℚ}
    (h : rollingMean w c i = some m) :
    ∃ win, owindow c w i = some win ∧ m = listMean win := by
  unfold rollingMean at h
  obtain ⟨win, hwin, hm⟩ := Option.map_eq_some'.mp h
  exact ⟨win, hwin, hm.symm⟩

lemma listMean_nonneg {l : List ℚ} (h : ∀ v ∈ l, 0 ≤ v) : 0 ≤ listMean l :=
  div_nonneg (List.sum_nonneg h) (Nat.cast_nonneg _)

lemma listMean_pos {l : List ℚ} (h : ∀ v ∈ l, 0 < v) (hne : l ≠ []) :
    0 < listMean l := by
  refine div_pos (List.sum_pos l h hne) ?_
  have : 0 < l.length := List.length_pos.mpr hne
  exact_mod_cast this

lemma rollingMean_nonneg {c : ℕ → Option ℚ} {w i : ℕ} {m : ℚ}
    (hc : ∀ j v, c j = some v → 0 ≤ v) (h : rollingMean w c i = some m) :
    0 ≤ m := by
  obtain ⟨win, hwin, hm⟩ := rollingMean_eq_some h
  subst hm
  refine listMean_nonneg fun v hv => ?_
  obtain ⟨j, _, hj⟩ := owindow_mem hwin hv
  exact hc j v hj

lemma gainCol_nonneg (xs : List ℚ) (j : ℕ) (v : ℚ) (h : gainCol xs j = some v) :
    0 ≤ v := by
  unfold gainCol at h
  by_cases hj : j < xs.length
  · rw [if_pos hj, Option.some_inj] at h
    subst h
    cases hd : deltaCol xs j with
    | none => simp
    | some d =>
        simp only
        split <;> [linarith; simp]
  · rw [if_neg hj] at h
    exact absurd h (by simp)

lemma lossCol_nonneg (xs : List ℚ) (j : ℕ) (v : ℚ) (h : lossCol xs j = some v) :
    0 ≤ v := by
  unfold lossCol at h
  by_cases hj : j < xs.length
  · rw [if_pos hj, Option.some_inj] at h
    subst h
    cases hd : deltaCol xs j with
    | none => simp
    | some d =>
        simp only
        split <;> [linarith; simp]
  · rw [if_neg hj] at h
    exact absurd h (by simp)

/-! Claim theorems. -/

/-- C3: the indicator computation is pure — the caller's series is
unchanged after the call (the source works on `df.copy()`), and two
invocations on identical input return identical frames. -/
theorem calculate_pure (df1 df2 : List ℚ) (h : df1 = df2) :
    (call_calculate df1).1 = df1 ∧
    (call_calculate df1).2 = (call_calculate df2).2 := by
  subst h
  exact ⟨rfl, rfl⟩

theorem calculate_pure_witness :
    (call_calculate [1]).1 = [1] ∧
    (call_calculate [1]).2 = (call_calculate [1]).2 :=
  calculate_pure [1] [1] rfl

/-- C2: the indicator computation is total on every series (the embedding
returns a frame for any list, of the input's length, with the input
column intact), every rolling field of window size `k` is the "no value"
sentinel on the first `k − 1` rows, and `Daily_Return` is the sentinel at
row 0. -/
theorem indicator_sentinel_rows (xs : List ℚ) (i : ℕ) :
    (calculate_technical_indicators xs).len = xs.length ∧
    (calculate_technical_indicators xs).rate i = xs[i]? ∧
    (i < 4 → (calculate_technical_indicators xs).ma5 i = none) ∧
    (i < 19 → (calculate_technical_indicators xs).ma20 i = none) ∧
    (i < 49 → (calculate_technical_indicators xs).ma50 i = none) ∧
    (i < 199 → (calculate_technical_indicators xs).ma200 i = none) ∧
    (i < 19 →
      (calculate_technical_indicators xs).bbMiddle i = none ∧
      (calculate_technical_indicators xs).bbUpper i = none ∧
      (calculate_technical_indicators xs).bbLower i = none ∧
      (calculate_technical_indicators xs).volatility i = none) ∧
    (i < 13 →
      (calculate_technical_indicators xs).rsi i = none ∧
      (calculate_technical_indicators xs).stochK i = none ∧
      (calculate_technical_indicators xs).atr i = none ∧
      (calculate_technical_indicators xs).diPlus i = none ∧
      (calculate_technical_indicators xs).diMinus i = none ∧
      (calculate_technical_indicators xs).adx i = none) ∧
    (i < 2 → (calculate_technical_indicators xs).stochD i = none) ∧
    (calculate_technical_indicators xs).dailyReturn 0 = none := by
  refine ⟨rfl, rfl, ?_, ?_, ?_, ?_, ?_, ?_, ?_, ?_⟩
  · intro h
    exact rollingMean_eq_none _ (by omega)
  · intro h
    exact rollingMean_eq_none _ (by omega)
  · intro h
    exact rollingMean_eq_none _ (by omega)
  · intro h
    exact rollingMean_eq_none _ (by omega)
  · intro h
    have hmid : BB_Middle xs i = none := rollingMean_eq_none _ (by omega)
    have hwin : owindow (rateCol xs) 20 i = none := owindow_eq_none _ (by omega)
    refine ⟨hmid, ?_, ?_, ?_⟩
    · show BB_Upper xs i = none
      simp [BB_Upper, hmid]
    · show BB_Lower xs i = none
      simp [BB_Lower, hmid]
    · show Volatility xs i = none
      simp [Volatility, hwin]
  · intro h
    have hg : rollingMean 14 (gainCol xs) i = none := rollingMean_eq_none _ (by omega)
    have hhi : high_14 xs i = none := by
      simp [high_14, owindow_eq_none _ (show i + 1 < 14 by omega)]
    have hatr : rollingMean 14 (TR xs) i = none := rollingMean_eq_none _ (by omega)
    have hdm : rollingMean 14 (DM_Plus xs) i = none := rollingMean_eq_none _ (by omega)
    have hdm2 : rollingMean 14 (DM_Minus xs) i = none := rollingMean_eq_none _ (by omega)
    have hadx : rollingMean 14 (DX xs) i = none := rollingMean_eq_none _ (by omega)
    refine ⟨?_, ?_, hatr, ?_, ?_, hadx⟩
    · show RSI xs i = none
      simp [RSI, hg]
    · show Stoch_K xs i = none
      cases h1 : rateCol xs i <;> cases h2 : low_14 xs i <;>
        simp [Stoch_K, hhi, h1, h2]
    · show DI_Plus xs i = none
      cases h1 : ATR xs i <;> simp [DI_Plus, hdm, h1]
    · show DI_Minus xs i = none
      cases h1 : ATR xs i <;> simp [DI_Minus, hdm2, h1]
  · intro h
    exact rollingMean_eq_none _ (by omega)
  · show Daily_Return xs 0 = none
    simp [Daily_Return]

theorem indicator_sentinel_rows_witness :
    (calculate_technical_indicators [5]).len = 1 ∧
    (calculate_technical_indicators [5]).ma5 0 = none ∧
    (calculate_technical_indicators [5]).ma20 0 = none ∧
    (calculate_technical_indicators [5]).ma50 0 = none ∧
    (calculate_technical_indicators [5]).ma200 0 = none ∧
    (calculate_technical_indicators [5]).bbUpper 0 = none ∧
    (calculate_technical_indicators [5]).rsi 0 = none ∧
    (calculate_technical_indicators [5]).stochD 0 = none ∧
    (calculate_technical_indicators [5]).dailyReturn 0 = none := by
  obtain ⟨hlen, -, h5, h20, h50, h200, hbb, h14, h3, hdr⟩ :=
    indicator_sentinel_rows [5] 0
  exact ⟨hlen, h5 (by omega), h20 (by omega), h50 (by omega), h200 (by omega),
    (hbb (by omega)).2.1, (h14 (by omega)).1, h3 (by omega), hdr⟩

/-- C10: the returned frame carries the index-aligned intermediate
columns `TR`, `DM_Plus` and `DM_Minus` of the ADX computation: at any row
`i ≥ 1` they hold the absolute day-over-day delta and its positive and
negative parts, and at row 0 they hold NaN resp. 0 and 0. -/
theorem frame_exposes_adx_intermediates (xs : List ℚ) (i : ℕ) (a b : ℚ)
    (h1 : 1 ≤ i) (ha : xs[i]? = some a) (hb : xs[i - 1]? = some b) :
    (calculate_technical_indicators xs).tr i = some |a - b| ∧
    (calculate_technical_indicators xs).dmPlus i =
      some (if 0 < a - b then a - b else 0) ∧
    (calculate_technical_indicators xs).dmMinus i =
      some (if a - b < 0 then -(a - b) else 0) ∧
    (0 < xs.length →
      (calculate_technical_indicators xs).tr 0 = none ∧
      (calculate_technical_indicators xs).dmPlus 0 = some 0 ∧
      (calculate_technical_indicators xs).dmMinus 0 = some 0) := by
  have hi0 : i ≠ 0 := by omega
  have hd : deltaCol xs i = some (a - b) := by
    simp [deltaCol, hi0, ha, hb]
  have hlt : i < xs.length := by
    have := List.getElem?_eq_some.mp ha
    exact this.1
  refine ⟨?_, ?_, ?_, ?_⟩
  · show TR xs i = some |a - b|
    simp [TR, hd]
  · show DM_Plus xs i = some (if 0 < a - b then a - b else 0)
    simp [DM_Plus, hlt, hd]
  · show DM_Minus xs i = some (if a - b < 0 then -(a - b) else 0)
    simp [DM_Minus, hlt, hd]
  · intro hpos
    have hd0 : deltaCol xs 0 = none := by simp [deltaCol]
    refine ⟨?_, ?_, ?_⟩
    · show TR xs 0 = none
      simp [TR, hd0]
    · show DM_Plus xs 0 = some 0
      simp [DM_Plus, hpos, hd0]
    · show DM_Minus xs 0 = some 0
      simp [DM_Minus, hpos, hd0]

theorem frame_exposes_adx_intermediates_witness :
    (calculate_technical_indicators [1, 3]).tr 1 = some |(3 : ℚ) - 1| ∧
    (calculate_technical_indicators [1, 3]).dmPlus 1 =
      some (if 0 < (3 : ℚ) - 1 then (3 : ℚ) - 1 else 0) ∧
    (calculate_technical_indicators [1, 3]).dmMinus 1 =
      some (if (3 : ℚ) - 1 < 0 then -((3 : ℚ) - 1) else 0) ∧
    (0 < ([1, 3] : List ℚ).length →
      (calculate_technical_indicators [1, 3]).tr 0 = none ∧
      (calculate_technical_indicators [1, 3]).dmPlus 0 = some 0 ∧
      (calculate_technical_indicators [1, 3]).dmMinus 0 = some 0) :=
  frame_exposes_adx_intermediates [1, 3] 1 3 1 (by omega) (by decide) (by decide)

/-- C9: on a non-empty series the trailing-10-row direction compares the
last rate of the final ten rows with the first rate of those rows: the
label is "上昇" (up) exactly when the last strictly exceeds the first,
else "下降" (down) — also when the two are equal. -/
theorem recent_trend_up_iff (xs : List ℚ) (h : xs ≠ []) :
    ∃ a b, (xs.drop (xs.length - 10)).head? = some a ∧
      (xs.drop (xs.length - 10)).getLast? = some b ∧
      recentTrend xs = some (if b > a then "上昇" else "下降") := by
  have ht : xs.drop (xs.length - 10) ≠ [] := by
    rw [← List.length_pos]
    rw [List.length_drop]
    have : 0 < xs.length := List.length_pos.mpr h
    omega
  refine ⟨(xs.drop (xs.length - 10)).head ht, (xs.drop (xs.length - 10)).getLast ht,
    List.head?_eq_head ht, List.getLast?_eq_getLast _ ht, ?_⟩
  show (match (xs.drop (xs.length - 10)).head?, (xs.drop (xs.length - 10)).getLast? with
    | some a, some b => some (if b > a then "上昇" else "下降")
    | _, _ => none) = _
  rw [List.head?_eq_head ht, List.getLast?_eq_getLast _ ht]

theorem recent_trend_up_iff_witness :
    ∃ a b, (([1, 2] : List ℚ).drop (([1, 2] : List ℚ).length - 10)).head? = some a ∧
      (([1, 2] : List ℚ).drop (([1, 2] : List ℚ).length - 10)).getLast? = some b ∧
      recentTrend [1, 2] = some (if b > a then "上昇" else "下降") :=
  recent_trend_up_iff [1, 2] (by simp)

/-- C7: the technical-signal summary classifies the latest row with fixed
thresholds — RSI is "買われすぎ" (overbought) iff above 70, "売られすぎ"
(oversold) iff below 30, else "中立" (neutral); ADX is "強いトレンド"
(strong trend) iff above 25, "弱いトレンド" (weak trend) iff in (20, 25],
else "レンジ相場" (ranging) — and an indicator whose latest value is the
sentinel contributes no entry at all. -/
theorem tech_signals_classification (r : LatestRow) (name : String) (v : ℚ)
    (lbl : String) :
    ((name, v, lbl) ∈ techSignals r ↔
      ((name = "RSI" ∧ r.rsiV = some v ∧ lbl = rsiSignal v) ∨
       (name = "Stochastic %K" ∧ r.stochKV = some v ∧ lbl = stochSignal v) ∨
       (name = "ADX" ∧ r.adxV = some v ∧ lbl = adxSignal v))) ∧
    (rsiSignal v = "買われすぎ" ↔ 70 < v) ∧
    (rsiSignal v = "売られすぎ" ↔ v < 30) ∧
    (rsiSignal v = "中立" ↔ (30 ≤ v ∧ v ≤ 70)) ∧
    (adxSignal v = "強いトレンド" ↔ 25 < v) ∧
    (adxSignal v = "弱いトレンド" ↔ (20 < v ∧ v ≤ 25)) ∧
    (adxSignal v = "レンジ相場" ↔ v ≤ 20) := by
  constructor
  · obtain ⟨r1, r2, r3⟩ := r
    cases r1 <;> cases r2 <;> cases r3 <;>
      simp only [techSignals, List.mem_append, List.mem_singleton, List.not_mem_nil,
        Prod.mk.injEq, false_or, or_false, Option.some.injEq] <;>
      aesop
  · unfold rsiSignal adxSignal
    refine ⟨?_, ?_, ?_, ?_, ?_, ?_⟩ <;> split_ifs with h1 h2 <;>
      first
        | exact iff_of_true rfl (by constructor <;> linarith)
        | exact iff_of_true rfl (by linarith)
        | exact iff_of_false (by decide) (by intro hc; linarith)

/-- C4: whenever the RSI column is defined (not the sentinel), its value
lies in the closed interval [0, 100]. -/
theorem rsi_bounded (xs : List ℚ) (i : ℕ) (v : ℚ)
    (h : (calculate_technical_indicators xs).rsi i = some v) :
    0 ≤ v ∧ v ≤ 100 := by
  have h' : RSI xs i = some v := h
  unfold RSI at h'
  cases hg : rollingMean 14 (gainCol xs) i with
  | none => rw [hg] at h'; simp at h'
  | some g =>
      cases hl : rollingMean 14 (lossCol xs) i with
      | none => rw [hg, hl] at h'; simp at h'
      | some l =>
          rw [hg, hl] at h'
          simp only at h'
          have hg0 : 0 ≤ g := rollingMean_nonneg (gainCol_nonneg xs) hg
          have hl0 : 0 ≤ l := rollingMean_nonneg (lossCol_nonneg xs) hl
          by_cases hlz : l = 0
          · rw [if_pos hlz] at h'
            by_cases hgz : g = 0
            · rw [if_pos hgz] at h'
              simp at h'
            · rw [if_neg hgz, Option.some_inj] at h'
              subst h'
              norm_num
          · rw [if_neg hlz, Option.some_inj] at h'
            subst h'
            have hlpos : 0 < l := lt_of_le_of_ne hl0 (Ne.symm hlz)
            have hrs : 0 ≤ g / l := div_nonneg hg0 hl0
            have hden : (1 : ℚ) ≤ 1 + g / l := by linarith
            have hqpos : 0 < 100 / (1 + g / l) :=
              div_pos (by norm_num) (by linarith)
            have hqle : 100 / (1 + g / l) ≤ 100 :=
              div_le_self (by norm_num) hden
            constructor <;> linarith

theorem rsi_bounded_witness : 0 ≤ (100 : ℚ) ∧ (100 : ℚ) ≤ 100 :=
  rsi_bounded [1, 2, 3, 4, 5, 6, 7, 8, 9, 10, 11, 12, 13, 14] 13 100 (by
    show RSI [1, 2, 3, 4, 5, 6, 7, 8, 9, 10, 11, 12, 13, 14] 13 = some 100
    norm_num [RSI, rollingMean, owindow, gainCol, lossCol, deltaCol, rateCol,
      List.range', List.reduceOption, List.filterMap, listMean])

/-- C8: wherever BB_Upper, BB_Middle and BB_Lower are all defined,
BB_Upper ≥ BB_Middle ≥ BB_Lower: the bands sit two nonnegative standard
deviations above and below the middle band. -/
theorem bollinger_ordered (xs : List ℚ) (i : ℕ) (u lo : ℝ) (m : ℚ)
    (hu : (calculate_technical_indicators xs).bbUpper i = some u)
    (hm : (calculate_technical_indicators xs).bbMiddle i = some m)
    (hlo : (calculate_technical_indicators xs).bbLower i = some lo) :
    lo ≤ (m : ℝ) ∧ (m : ℝ) ≤ u := by
  have hu' : BB_Upper xs i = some u := hu
  have hm' : BB_Middle xs i = some m := hm
  have hlo' : BB_Lower xs i = some lo := hlo
  unfold BB_Upper at hu'
  unfold BB_Lower at hlo'
  rw [hm'] at hu' hlo'
  cases hs : bb_std xs i with
  | none =>
      rw [hs] at hu'
      simp at hu'
  | some s =>
      rw [hs] at hu' hlo'
      simp only [Option.some.injEq] at hu' hlo'
      have hs0 : 0 ≤ s := by
        unfold bb_std at hs
        obtain ⟨w, _, hsw⟩ := Option.map_eq_some'.mp hs
        rw [← hsw]
        exact Real.sqrt_nonneg _
      constructor
      · rw [← hlo']
        linarith
      · rw [← hu']
        linarith

theorem bollinger_ordered_witness :
    bbWitnessLower ≤ ((0 : ℚ) : ℝ) ∧ ((0 : ℚ) : ℝ) ≤ bbWitnessUpper := by
  have hvar : bbVar (List.replicate 20 0) 19 = some 0 := by
    norm_num [bbVar, owindow, rateCol, List.range', List.replicate,
      List.reduceOption, List.filterMap, sampleVar, listMean]
  have hmid : BB_Middle (List.replicate 20 0) 19 = some 0 := by
    norm_num [BB_Middle, rollingMean, owindow, rateCol, List.range', List.replicate,
      List.reduceOption, List.filterMap, listMean]
  have hstd : bb_std (List.replicate 20 0) 19 = some (Real.sqrt ((0 : ℚ) : ℝ)) := by
    unfold bb_std
    rw [hvar]
    rfl
  have hu : (calculate_technical_indicators (List.replicate 20 0)).bbUpper 19 =
      some bbWitnessUpper := by
    show BB_Upper (List.replicate 20 0) 19 = some bbWitnessUpper
    unfold BB_Upper
    rw [hmid, hstd]
    rfl
  have hlo : (calculate_technical_indicators (List.replicate 20 0)).bbLower 19 =
      some bbWitnessLower := by
    show BB_Lower (List.replicate 20 0) 19 = some bbWitnessLower
    unfold BB_Lower
    rw [hmid, hstd]
    rfl
  exact bollinger_ordered (List.replicate 20 0) 19 bbWitnessUpper bbWitnessLower 0
    hu hmid hlo

/-- C1 counterexample: at the two-row series [0, 1] the whole-series
standard deviation the code computes (`Series.std()`, default `ddof=1`,
variance 1/2) differs from the population standard deviation the claim
asserts (variance 1/4), so "every standard deviation the program computes
is the population standard deviation" is false. -/
theorem summary_std_not_population :
    seriesStd [0, 1] ≠ some (Real.sqrt ((popVar [0, 1] : ℚ) : ℝ)) := by
  have h1 : sampleVar [0, 1] = 1 / 2 := by
    norm_num [sampleVar, listMean]
  have h2 : popVar [0, 1] = 1 / 4 := by
    norm_num [popVar, listMean]
  intro hcon
  unfold seriesStd at hcon
  rw [if_pos (by norm_num)] at hcon
  rw [Option.some_inj, h1, h2] at hcon
  have h3 : ((1 / 2 : ℚ) : ℝ) = ((1 / 4 : ℚ) : ℝ) :=
    (Real.sqrt_inj (by positivity) (by positivity)).mp hcon
  norm_num at h3

/-- C1 amended: every standard deviation the program computes over rates —
the rolling 20-row `bb_std` that feeds BB_Upper/BB_Lower, the `Volatility`
column, and the whole-series summary std — is the SAMPLE standard
deviation (pandas default `ddof=1`): the square root of the sum of squared
deviations divided by N − 1, not by N. -/
theorem std_is_sample (xs ys : List ℚ) (i : ℕ) (win : List ℚ)
    (hw : owindow (rateCol xs) 20 i = some win) (hys : 2 ≤ ys.length) :
    win.length = 20 ∧
    bb_std xs i = some (Real.sqrt ((sampleVar win : ℚ) : ℝ)) ∧
    (calculate_technical_indicators xs).volatility i =
      some (Real.sqrt ((sampleVar win : ℚ) : ℝ)) ∧
    sampleVar win * 19 = ((win.map fun x => (x - listMean win) ^ 2).sum) ∧
    sampleVar win * 19 = popVar win * 20 ∧
    seriesStd ys = some (Real.sqrt ((sampleVar ys : ℚ) : ℝ)) ∧
    sampleVar ys * ((ys.length : ℚ) - 1) = popVar ys * (ys.length : ℚ) := by
  have hlen : win.length = 20 := owindow_length hw
  have hsum : sampleVar win * 19 = ((win.map fun x => (x - listMean win) ^ 2).sum) := by
    unfold sampleVar
    rw [hlen]
    norm_num
  refine ⟨hlen, ?_, ?_, hsum, ?_, ?_, ?_⟩
  · unfold bb_std bbVar
    rw [hw]
    rfl
  · show Volatility xs i = some (Real.sqrt ((sampleVar win : ℚ) : ℝ))
    unfold Volatility
    rw [hw]
    rfl
  · rw [hsum]
    unfold popVar
    rw [hlen]
    norm_num
  · unfold seriesStd
    rw [if_pos hys]
  · have hne : ((ys.length : ℚ) - 1) ≠ 0 := by
      have h2 : (2 : ℚ) ≤ (ys.length : ℚ) := by exact_mod_cast hys
      intro hc
      linarith
    have hne2 : (ys.length : ℚ) ≠ 0 := by
      have h2 : (2 : ℚ) ≤ (ys.length : ℚ) := by exact_mod_cast hys
      intro hc
      linarith
    unfold sampleVar popVar
    rw [div_mul_cancel₀ _ hne, div_mul_cancel₀ _ hne2]

theorem std_is_sample_witness :
    (List.replicate 20 (0 : ℚ)).length = 20 ∧
    bb_std (List.replicate 20 0) 19 =
      some (Real.sqrt ((sampleVar (List.replicate 20 0) : ℚ) : ℝ)) ∧
    (calculate_technical_indicators (List.replicate 20 0)).volatility 19 =
      some (Real.sqrt ((sampleVar (List.replicate 20 0) : ℚ) : ℝ)) ∧
    sampleVar (List.replicate 20 0) * 19 =
      ((List.replicate 20 (0 : ℚ)).map
        fun x => (x - listMean (List.replicate 20 0)) ^ 2).sum ∧
    sampleVar (List.replicate 20 0) * 19 = popVar (List.replicate 20 0) * 20 ∧
    seriesStd [0, 1] = some (Real.sqrt ((sampleVar [0, 1] : ℚ) : ℝ)) ∧
    sampleVar [0, 1] * ((([0, 1] : List ℚ).length : ℚ) - 1) =
      popVar [0, 1] * (([0, 1] : List ℚ).length : ℚ) := by
  have hw : owindow (rateCol (List.replicate 20 0)) 20 19 =
      some (List.replicate 20 0) := by
    norm_num [owindow, rateCol, List.range', List.replicate, List.reduceOption,
      List.filterMap]
  exact std_is_sample (List.replicate 20 0) [0, 1] 19 (List.replicate 20 0)
    hw (by norm_num)

lemma emaFrom_length (a : ℚ) : ∀ (e : ℚ) (ys : List ℚ),
    (emaFrom a e ys).length = ys.length := by
  intro e ys
  induction ys generalizing e with
  | nil => rfl
  | cons x rest ih => simp [emaFrom, ih]

lemma emaFrom_step (a : ℚ) : ∀ (e : ℚ) (ys : List ℚ) (i : ℕ) (x ee : ℚ),
    ys[i + 1]? = some x → (emaFrom a e ys)[i]? = some ee →
    (emaFrom a e ys)[i + 1]? = some (a * x + (1 - a) * ee) := by
  intro e ys
  induction ys generalizing e with
  | nil => intro i x ee h1 _; simp at h1
  | cons y rest ih =>
      intro i x ee h1 h2
      simp only [emaFrom] at h2 ⊢
      cases i with
      | zero =>
          cases rest with
          | nil => simp at h1
          | cons z rest' =>
              simp only [List.getElem?_cons_succ, List.getElem?_cons_zero,
                Option.some.injEq] at h1 h2
              subst h1
              subst h2
              simp [emaFrom]
      | succ n =>
          simp only [List.getElem?_cons_succ] at h1 h2 ⊢
          exact ih (a * y + (1 - a) * e) n x ee h1 h2

lemma emaList_ewmRec (a : ℚ) (ys : List ℚ) : EwmRec a ys (emaList a ys) := by
  refine ⟨?_, ?_, ?_⟩
  · cases ys with
    | nil => rfl
    | cons x rest => simp [emaList, emaFrom_length]
  · cases ys with
    | nil => rfl
    | cons x rest => simp [emaList]
  · intro i x e h1 h2
    cases ys with
    | nil => simp at h1
    | cons y rest =>
        cases i with
        | zero =>
            cases rest with
            | nil => simp at h1
            | cons z rest' =>
                simp only [emaList, List.getElem?_cons_succ,
                  List.getElem?_cons_zero, Option.some.injEq] at h1 h2 ⊢
                subst h1
                subst h2
                simp [emaFrom]
        | succ n =>
            simp only [emaList, List.getElem?_cons_succ] at h1 h2 ⊢
            exact emaFrom_step a y rest n x e h1 h2

/-- C5: MACD is the pointwise difference of the span-12 and span-26
exponentially weighted means of the rate, MACD_Signal is the span-9
exponentially weighted mean of MACD, and each of those means satisfies the
recursion E[0] = x[0], E[t+1] = a*x[t+1] + (1-a)*E[t] with smoothing
factor a = 2/(span+1). -/
theorem macd_ema_spec (xs : List ℚ) :
    EwmRec (2 / ((12 : ℚ) + 1)) xs (exp1 xs) ∧
    EwmRec (2 / ((26 : ℚ) + 1)) xs (exp2 xs) ∧
    EwmRec (2 / ((9 : ℚ) + 1)) (macdList xs) (macdSignalList xs) ∧
    (∀ i a b, (exp1 xs)[i]? = some a → (exp2 xs)[i]? = some b →
      (calculate_technical_indicators xs).macd i = some (a - b)) ∧
    (∀ i, (calculate_technical_indicators xs).macdSignal i =
      (ewmMean 9 (macdList xs))[i]?) := by
  have h12 : ((12 : ℕ) : ℚ) = (12 : ℚ) := by norm_num
  have h26 : ((26 : ℕ) : ℚ) = (26 : ℚ) := by norm_num
  have h9 : ((9 : ℕ) : ℚ) = (9 : ℚ) := by norm_num
  refine ⟨?_, ?_, ?_, ?_, fun i => rfl⟩
  · have := emaList_ewmRec (2 / (((12 : ℕ) : ℚ) + 1)) xs
    rwa [h12] at this
  · have := emaList_ewmRec (2 / (((26 : ℕ) : ℚ) + 1)) xs
    rwa [h26] at this
  · have := emaList_ewmRec (2 / (((9 : ℕ) : ℚ) + 1)) (macdList xs)
    rwa [h9] at this
  · intro i a b ha hb
    show MACD xs i = some (a - b)
    unfold MACD macdList
    rw [List.getElem?_zipWith', ha, hb]
    rfl

theorem macd_ema_spec_witness :
    (calculate_technical_indicators [1, 2]).macd 1 =
      some ((15 : ℚ) / 13 - 29 / 27) :=
  (macd_ema_spec [1, 2]).2.2.2.1 1 (15 / 13) (29 / 27)
    (by norm_num [exp1, ewmMean, emaList, emaFrom])
    (by norm_num [exp2, ewmMean, emaList, emaFrom])

/-- C6: on a strictly monotonically increasing price series of at least
15 rows the RSI at the last row equals 100: every loss in the trailing
14-row window is 0 while the gains are positive, so the average loss is
0, RS is +inf under float division, and 100 − 100/(1 + RS) saturates at
100. -/
theorem rsi_saturates_increasing (xs : List ℚ) (h15 : 15 ≤ xs.length)
    (hmono : xs.Chain' (· < ·)) :
    (calculate_technical_indicators xs).rsi (xs.length - 1) = some 100 := by
  have hw : 14 ≤ (xs.length - 1) + 1 := by omega
  have hadj : ∀ j, 1 ≤ j → j < xs.length →
      0 < xs.getD j 0 - xs.getD (j - 1) 0 := by
    intro j h1 h2
    have hj1 : j - 1 < xs.length - 1 := by omega
    have hstep := List.chain'_iff_get.mp hmono (j - 1) hj1
    simp only [List.get_eq_getElem] at hstep
    have hidx : j - 1 + 1 = j := by omega
    rw [List.getD_eq_getElem xs 0 h2,
      List.getD_eq_getElem xs 0 (show j - 1 < xs.length by omega)]
    have hlt : xs[j - 1] < xs[j] := by
      have := hstep
      simp only [hidx] at this
      exact this
    linarith
  have hdelta : ∀ j, 1 ≤ j → j < xs.length →
      deltaCol xs j = some (xs.getD j 0 - xs.getD (j - 1) 0) := by
    intro j h1 h2
    unfold deltaCol
    rw [if_neg (by omega : ¬j = 0)]
    rw [List.getElem?_eq_getElem h2,
      List.getElem?_eq_getElem (show j - 1 < xs.length by omega)]
    rw [List.getD_eq_getElem xs 0 h2,
      List.getD_eq_getElem xs 0 (show j - 1 < xs.length by omega)]
  have hrange : ∀ j ∈ List.range' ((xs.length - 1) + 1 - 14) 14,
      1 ≤ j ∧ j < xs.length := by
    intro j hj
    rw [List.mem_range'_1] at hj
    omega
  have hgwin : owindow (gainCol xs) 14 (xs.length - 1) =
      some ((List.range' ((xs.length - 1) + 1 - 14) 14).map
        fun j => xs.getD j 0 - xs.getD (j - 1) 0) := by
    refine owindow_eq_some _ _ hw ?_
    intro j hj
    obtain ⟨h1, h2⟩ := hrange j hj
    unfold gainCol
    rw [if_pos h2, hdelta j h1 h2]
    simp only [Option.some.injEq]
    rw [if_pos (hadj j h1 h2)]
  have hlwin : owindow (lossCol xs) 14 (xs.length - 1) =
      some ((List.range' ((xs.length - 1) + 1 - 14) 14).map fun _ => (0 : ℚ)) := by
    refine owindow_eq_some _ _ hw ?_
    intro j hj
    obtain ⟨h1, h2⟩ := hrange j hj
    unfold lossCol
    rw [if_pos h2, hdelta j h1 h2]
    simp only [Option.some.injEq]
    rw [if_neg (by have := hadj j h1 h2; intro hc; linarith)]
  have hgain : rollingMean 14 (gainCol xs) (xs.length - 1) =
      some (listMean ((List.range' ((xs.length - 1) + 1 - 14) 14).map
        fun j => xs.getD j 0 - xs.getD (j - 1) 0)) := by
    unfold rollingMean
    rw [hgwin]
    rfl
  have hloss : rollingMean 14 (lossCol xs) (xs.length - 1) = some 0 := by
    unfold rollingMean
    rw [hlwin]
    simp [listMean]
  have hgpos : 0 < listMean ((List.range' ((xs.length - 1) + 1 - 14) 14).map
      fun j => xs.getD j 0 - xs.getD (j - 1) 0) := by
    refine listMean_pos ?_ ?_
    · intro v hv
      obtain ⟨j, hj, rfl⟩ := List.mem_map.mp hv
      obtain ⟨h1, h2⟩ := hrange j hj
      exact hadj j h1 h2
    · intro hc
      have := congrArg List.length hc
      simp at this
  show RSI xs (xs.length - 1) = some 100
  unfold RSI
  rw [hgain, hloss]
  simp only
  rw [if_pos trivial, if_neg (ne_of_gt hgpos)]

theorem rsi_saturates_increasing_witness :
    (calculate_technical_indicators
      [1, 2, 3, 4, 5, 6, 7, 8, 9, 10, 11, 12, 13, 14, 15]).rsi 14 = some 100 :=
  rsi_saturates_increasing [1, 2, 3, 4, 5, 6, 7, 8, 9, 10, 11, 12, 13, 14, 15]
    (by norm_num)
    (by norm_num [List.chain'_cons, List.chain'_singleton])

end FxHandson
